import Mathlib

/-!
Shallow embedding of `src/Script.js`, a browser-based expense logger.

The script keeps an in-memory array `expenses`, reads four form fields on
submission (`handleFormSubmit`), validates them, appends a record, re-renders
the UI (`updateUI`: total, sorted list, empty-state placeholder) and switches
the visible page (`showPage`).  JavaScript numbers are modelled as rationals
(the script only parses decimal strings, adds, compares and formats them);
the DOM is modelled by explicit structures holding exactly the attributes the
script reads and writes (`active` classes of pages, the highlight classes of
nav links, the text of the total element, the children of the list container,
the message box text and colour).
-/

namespace Dinero

/- The Batteries rational-number operations are marked `[irreducible]` for
elaboration performance; restore the default reducibility locally so that
concrete program runs can be evaluated by `decide`. -/
attribute [local semireducible] Rat.mul Rat.add Rat.inv Rat.sub Rat.ofScientific

/-- An expense record as built in `handleFormSubmit`
(`{ id: Date.now(), description, amount, category, date }`). -/
structure Expense where
  id : Int
  description : String
  amount : ℚ
  category : String
  date : String
deriving DecidableEq, Repr

/-- The four raw field values read from the form
(`expenseForm.description.value` etc.). -/
structure FormData where
  description : String
  amount : String
  category : String
  date : String
deriving DecidableEq, Repr

/- ### parseFloat -/

/-- Consume leading decimal digits of a character list, returning the value
accumulated into `acc`, the count of digits consumed added to `n`, and the
rest of the list. -/
def takeDigits : List Char → Nat → Nat → Nat × Nat × List Char
  | [], acc, n => (acc, n, [])
  | c :: cs, acc, n =>
    if c.isDigit then takeDigits cs (acc * 10 + (c.toNat - 48)) (n + 1)
    else (acc, n, c :: cs)

/-- JavaScript whitespace accepted before a numeric literal. -/
def isJsSpace (c : Char) : Bool :=
  c == ' ' || c == '\t' || c == '\n' || c == '\r'

/-- Model of JavaScript `parseFloat`: skip leading whitespace, read an
optional sign, integer digits, an optional fraction, and an optional exponent
(`e`/`E`, optional sign, digits); trailing characters are ignored.  Returns
`none` when no digits are found before the exponent (JavaScript `NaN`).
The non-finite literal `Infinity` has no rational value and is outside the
modelled domain. -/
def parseFloat (s : String) : Option ℚ :=
  let cs0 := s.data.dropWhile isJsSpace
  let signAndRest : ℚ × List Char :=
    match cs0 with
    | '-' :: rest => (-1, rest)
    | '+' :: rest => (1, rest)
    | _ => (1, cs0)
  let sign := signAndRest.1
  let cs1 := signAndRest.2
  let ipRes := takeDigits cs1 0 0
  let ip := ipRes.1
  let ipn := ipRes.2.1
  let cs2 := ipRes.2.2
  let fpRes : Nat × Nat × List Char :=
    match cs2 with
    | '.' :: rest => takeDigits rest 0 0
    | _ => (0, 0, cs2)
  let fp := fpRes.1
  let fpn := fpRes.2.1
  let cs3 := fpRes.2.2
  if ipn = 0 ∧ fpn = 0 then none
  else
    let mant : ℚ := sign * ((ip : ℚ) + (fp : ℚ) / (10 : ℚ) ^ fpn)
    let expPart : Bool × Nat :=
      match cs3 with
      | c :: rest =>
        if c == 'e' || c == 'E' then
          let esignAndRest : Bool × List Char :=
            match rest with
            | '-' :: r => (false, r)
            | '+' :: r => (true, r)
            | _ => (true, rest)
          let eRes := takeDigits esignAndRest.2 0 0
          if eRes.2.1 = 0 then (true, 0) else (esignAndRest.1, eRes.1)
        else (true, 0)
      | [] => (true, 0)
    if expPart.1 then some (mant * (10 : ℚ) ^ expPart.2)
    else some (mant / (10 : ℚ) ^ expPart.2)

/- ### IEEE-754 double-precision rounding -/

/-- Binary logarithm (rounded down) by structural recursion on a fuel bound,
so that the kernel can evaluate it; `natLog2 0 = 0`. -/
def natLog2Aux : Nat → Nat → Nat
  | 0, _ => 0
  | fuel + 1, n => if n ≤ 1 then 0 else natLog2Aux fuel (n / 2) + 1

/-- `natLog2 n` is the position of the highest set bit of `n`. -/
def natLog2 (n : Nat) : Nat := natLog2Aux n n

/-- The rational value `2 ^ e` for a possibly negative exponent. -/
def pow2 (e : Int) : ℚ :=
  if 0 ≤ e then ((2 : ℚ) ^ e.toNat) else 1 / ((2 : ℚ) ^ (-e).toNat)

/-- Round a rational to the nearest integer, ties to the even neighbour
(the IEEE-754 default rounding direction). -/
def roundHalfEven (x : ℚ) : Int :=
  let n := ⌊x⌋
  let r := x - (n : ℚ)
  if r < 1/2 then n
  else if (1/2 : ℚ) < r then n + 1
  else if n % 2 = 0 then n else n + 1

/-- Round a rational to the nearest IEEE-754 binary64 value (the number type
of JavaScript): 53 significant bits in the normal range, gradual underflow to
multiples of `2 ^ (-1074)` below it, ties to even.  Magnitudes that would
overflow to `Infinity` have no rational image and are outside the modelled
domain (returned unrounded). -/
def fl (q : ℚ) : ℚ :=
  if q = 0 then 0
  else
    let s : ℚ := if q < 0 then -1 else 1
    let m : ℚ := if q < 0 then -q else q
    let e0 : Int := (natLog2 m.num.natAbs : Int) - (natLog2 m.den : Int)
    let e : Int := if m < pow2 e0 then e0 - 1 else e0
    if 1023 < e then q
    else
      let scale : Int := if e < -1022 then (-1074 : Int) else e - 52
      s * (roundHalfEven (m / pow2 scale) : ℚ) * pow2 scale

/- ### Number formatting: toFixed(2) -/

/-- Render a count of hundredths as a decimal string with exactly two
fraction digits, e.g. `1050 ↦ "10.50"`. -/
def hundredthsToString (n : Nat) : String :=
  toString (n / 100) ++ "." ++ (if n % 100 < 10 then "0" else "") ++ toString (n % 100)

/-- Model of JavaScript `Number.prototype.toFixed(2)`, applied to the exact
rational value of the double being formatted (in `updateUI` the argument is
the already-rounded double running total): for a negative value, a leading
minus sign followed by the rendering of the absolute value; the magnitude is
rounded to the nearest hundredth, ties to the larger integer count per
ECMA-262 ("if there are two such n, pick the larger n"). -/
def toFixed2 (q : ℚ) : String :=
  if q < 0 then "-" ++ hundredthsToString (⌊(-q) * 100 + 1/2⌋).toNat
  else hundredthsToString (⌊q * 100 + 1/2⌋).toNat

/- ### Dates -/

/-- Fold decimal digit characters into a natural number. -/
def digitsToNat (cs : List Char) : Nat :=
  cs.foldl (fun a c => a * 10 + (c.toNat - 48)) 0

/-- Split a character list at every `'-'` (the behaviour of
`String.splitOn "-"` on the character level). -/
def splitDash : List Char → List Char → List (List Char)
  | [], acc => [acc.reverse]
  | c :: cs, acc =>
    if c == '-' then acc.reverse :: splitDash cs []
    else splitDash cs (c :: acc)

/-- Parse a `YYYY-MM-DD` string (the value format of a date input) into
year, month and day. -/
def parseISODate (s : String) : Option (Nat × Nat × Nat) :=
  match splitDash s.data [] with
  | [ys, ms, ds] =>
    if ys.length = 4 ∧ ms.length = 2 ∧ ds.length = 2 ∧
       (ys ++ ms ++ ds).all Char.isDigit ∧
       1 ≤ digitsToNat ms ∧ digitsToNat ms ≤ 12 ∧
       1 ≤ digitsToNat ds ∧ digitsToNat ds ≤ 31 then
      some (digitsToNat ys, digitsToNat ms, digitsToNat ds)
    else none
  | _ => none

/-- Days from the civil epoch 1970-01-01 (Howard Hinnant's `days_from_civil`
algorithm, the standard model of proleptic-Gregorian date arithmetic). -/
def daysFromCivil (y m d : Int) : Int :=
  let y1 := if m ≤ 2 then y - 1 else y
  let era : Int := (if 0 ≤ y1 then y1 else y1 - 399) / 400
  let yoe : Int := y1 - era * 400
  let mp : Int := if 2 < m then m - 3 else m + 9
  let doy : Int := (153 * mp + 2) / 5 + d - 1
  let doe : Int := yoe * 365 + yoe / 4 - yoe / 100 + doy
  era * 146097 + doe - 719468

/-- Model of `new Date(s).getTime()` for the `YYYY-MM-DD` strings produced by
the date input: milliseconds since the epoch at UTC midnight.  Strings a date
input cannot produce are outside the modelled domain and map to `0`. -/
def dateVal (s : String) : Int :=
  match parseISODate s with
  | some (y, m, d) => daysFromCivil y m d * 86400000
  | none => 0

/-- Model of `new Date(s).toLocaleDateString('en-US', { timeZone: 'UTC' })`
for a `YYYY-MM-DD` string: `M/D/YYYY`. -/
def formatDate (s : String) : String :=
  match parseISODate s with
  | some (y, m, d) => toString m ++ "/" ++ toString d ++ "/" ++ toString y
  | none => "Invalid Date"

/- ### Sorting -/

/-- Insert an expense into a list that is already sorted by date descending,
after every element whose date is not strictly earlier.  Used to model the
stable sort `[...expenses].sort((a, b) => new Date(b.date) - new Date(a.date))`:
`Array.prototype.sort` is stable (ES2019), and for a consistent comparator
every stable sort computes the same output, here realised by insertion. -/
def insertByDateDesc (e : Expense) : List Expense → List Expense
  | [] => [e]
  | x :: xs =>
    if dateVal x.date < dateVal e.date then e :: x :: xs
    else x :: insertByDateDesc e xs

/-- The display order of `updateUI`: the store sorted by date, newest
first (stable). -/
def sortByDateDesc (es : List Expense) : List Expense :=
  es.foldl (fun acc e => insertByDateDesc e acc) []

/- ### Rendering (updateUI) -/

/-- A child of the expense-list container: either the empty-state placeholder
paragraph or a rendered expense row (description, category chip, formatted
date, formatted amount). -/
inductive ListItem where
  | placeholder : ListItem
  | entry (description category dateText amountText : String) : ListItem
deriving DecidableEq, Repr

/-- The row `updateUI` builds for one expense. -/
def renderEntry (e : Expense) : ListItem :=
  ListItem.entry e.description e.category (formatDate e.date) ("$" ++ toFixed2 e.amount)

/-- The parts of the DOM that `updateUI` writes: the text of the
total-expenditure element and the children of the list container. -/
structure RenderedUI where
  totalText : String
  listContents : List ListItem
deriving DecidableEq, Repr

/-- `expenses.reduce((sum, expense) => sum + expense.amount, 0)`: the running
total is a JavaScript double, so every addition rounds its exact result to
the nearest binary64 value.  (Amounts parsed from decimal strings are kept
exact in the model; the reduction coincides with the source exactly whenever
the parsed amounts are representable doubles, as in every concrete run
below.) -/
def sumAmounts (es : List Expense) : ℚ :=
  es.foldl (fun s e => fl (s + e.amount)) 0

/-- The same double-rounded left fold on a bare list of amounts. -/
def jsSum (qs : List ℚ) : ℚ :=
  qs.foldl (fun s q => fl (s + q)) 0

/-- Model of `updateUI`: writes the formatted total, clears the list
container, then appends either the placeholder (empty store) or one row per
expense in date-descending order. -/
def updateUI (es : List Expense) : RenderedUI :=
  { totalText := "$" ++ toFixed2 (sumAmounts es)
  , listContents :=
      if es.length = 0 then [ListItem.placeholder]
      else (sortByDateDesc es).map renderEntry }

/- ### View switching (showPage) -/

/-- A page container: its element id and whether its class list holds
`active`. -/
structure PageEl where
  id : String
  active : Bool
deriving DecidableEq, Repr

/-- A navigation link: its `data-page` attribute and whether it carries the
highlight classes (`text-indigo-600 bg-indigo-50`). -/
structure NavLink where
  page : String
  highlighted : Bool
deriving DecidableEq, Repr

/-- The view-related DOM state: the page containers and the nav links. -/
structure ViewState where
  pages : List PageEl
  navLinks : List NavLink
deriving DecidableEq, Repr

/-- Add `active` to the first page whose id matches (the element
`document.getElementById` returns). -/
def activateFirst : List PageEl → String → List PageEl
  | [], _ => []
  | p :: ps, pid =>
    if p.id == pid then { p with active := true } :: ps
    else p :: activateFirst ps pid

/-- Model of `showPage(pageId)`: remove `active` from every page, then look
the id up; when no element has it, `document.getElementById` yields `null`
and the access `null.classList` throws a `TypeError` — the returned flag is
`true` and the nav links are left untouched.  Otherwise activate the found
page, restyle every nav link (highlighted iff its `data-page` equals
`pageId`), and return the flag `false`. -/
def showPage (vs : ViewState) (pid : String) : ViewState × Bool :=
  let ps := vs.pages.map (fun p => { p with active := false })
  match ps.find? (fun p => p.id == pid) with
  | none => ({ vs with pages := ps }, true)
  | some _ =>
    ({ pages := activateFirst ps pid
     , navLinks := vs.navLinks.map (fun l => { l with highlighted := l.page == pid }) }
     , false)

/- ### Form submission (handleFormSubmit) -/

/-- JavaScript truthiness test `!amount` applied to the result of
`parseFloat`: `NaN` (no parse) and `0` are falsy. -/
def falsyNumber : Option ℚ → Bool
  | none => true
  | some q => q == 0

/-- The validation `!description || !amount || !date` of
`handleFormSubmit`. -/
def invalidSubmission (f : FormData) : Bool :=
  f.description == "" || falsyNumber (parseFloat f.amount) || f.date == ""

/-- The whole mutable state the script touches: the expense array, the form
fields, the message box (text and background colour), the page/nav DOM and
the rendered output. -/
structure AppState where
  expenses : List Expense
  form : FormData
  messageText : String
  messageColor : String
  view : ViewState
  rendered : RenderedUI
deriving DecidableEq, Repr

/-- Model of `handleFormSubmit`, parameterised by the value `Date.now()`
returns at this event and by today's date (used by `setDefaultDate` after the
form reset).  On invalid input it shows the error message on a red background
and returns; otherwise it appends the new record, resets the form, re-renders,
shows the success message on green and switches to the dashboard page. -/
def handleFormSubmit (now : Int) (today : String) (st : AppState) : AppState :=
  if invalidSubmission st.form then
    { st with messageText := "Please fill in all fields.", messageColor := "#ef4444" }
  else
    let newExpense : Expense :=
      { id := now
      , description := st.form.description
      , amount := (parseFloat st.form.amount).getD 0
      , category := st.form.category
      , date := st.form.date }
    let expenses1 := st.expenses ++ [newExpense]
    { expenses := expenses1
    , form := { description := "", amount := "", category := "", date := today }
    , messageText := "Expense added successfully!"
    , messageColor := "#22c55e"
    , view := (showPage st.view "dashboard-page").1
    , rendered := updateUI expenses1 }

/-- One user submission: the clock reading `Date.now()` will give, today's
date for the reset, and the field values the user typed. -/
structure Submission where
  now : Int
  today : String
  form : FormData
deriving DecidableEq, Repr

/-- Run a sequence of submissions: before each one the user fills the form
with the submission's field values, then the submit handler runs. -/
def runSubmissions (subs : List Submission) (st : AppState) : AppState :=
  subs.foldl (fun s sub => handleFormSubmit sub.now sub.today { s with form := sub.form }) st

/-- The state after the initialisation code at document-ready: empty store,
`showPage('logger-page')`, `updateUI()`. -/
def initState (f : FormData) (vs : ViewState) : AppState :=
  { expenses := []
  , form := f
  , messageText := ""
  , messageColor := ""
  , view := (showPage vs "logger-page").1
  , rendered := updateUI [] }

/-- The record a submission produces when it is valid, `none` otherwise;
`runSubmissions` appends exactly these. -/
def submissionRecord (sub : Submission) : Option Expense :=
  if invalidSubmission sub.form then none
  else some
    { id := sub.now
    , description := sub.form.description
    , amount := (parseFloat sub.form.amount).getD 0
    , category := sub.form.category
    , date := sub.form.date }

/- ### Concrete fixtures used by witnesses and counterexamples -/

/-- The two page containers of the document, neither active. -/
def vsEx : ViewState :=
  { pages := [{ id := "logger-page", active := false }, { id := "dashboard-page", active := false }]
  , navLinks := [{ page := "logger-page", highlighted := false }, { page := "dashboard-page", highlighted := false }] }

/-- The two page containers with the logger page active, as after start-up. -/
def vsActive : ViewState :=
  { pages := [{ id := "logger-page", active := true }, { id := "dashboard-page", active := false }]
  , navLinks := [{ page := "logger-page", highlighted := true }, { page := "dashboard-page", highlighted := false }] }

/-- A fully valid set of form fields. -/
def formEx : FormData :=
  { description := "Coffee", amount := "4.50", category := "food", date := "2024-01-10" }

/-- A state with the valid form filled in. -/
def stEx : AppState := initState formEx vsEx

/-- Form fields with an empty description (invalid). -/
def formEmptyDesc : FormData :=
  { description := "", amount := "4.50", category := "food", date := "2024-01-10" }

/-- A state with the empty-description form filled in. -/
def stEmptyDesc : AppState := initState formEmptyDesc vsEx

/-- Form fields with a negative amount (accepted by the validation). -/
def formNeg : FormData :=
  { description := "Refund", amount := "-5", category := "transport", date := "2024-01-03" }

/-- A state with the negative-amount form filled in. -/
def stNeg : AppState := initState formNeg vsEx

/-- Form fields whose amount has trailing non-numeric characters. -/
def formGarbage : FormData :=
  { description := "Snack", amount := "4.5abc", category := "food", date := "2024-01-06" }

/-- A state with the trailing-garbage form filled in. -/
def stGarbage : AppState := initState formGarbage vsEx

/-- Two valid submissions with different amounts and dates. -/
def subsEx : List Submission :=
  [ { now := 1, today := "2024-01-11"
    , form := { description := "Coffee", amount := "4.50", category := "food", date := "2024-01-10" } }
  , { now := 2, today := "2024-01-11"
    , form := { description := "Book", amount := "2.25", category := "other", date := "2024-01-09" } } ]

/-- Two valid submissions whose double sum differs from their exact sum:
`0.25` is below half an ulp of `10^16`, so the rounded addition absorbs
it. -/
def subsBig : List Submission :=
  [ { now := 1, today := "2024-01-11"
    , form := { description := "Grant", amount := "10000000000000000", category := "other", date := "2024-01-10" } }
  , { now := 2, today := "2024-01-11"
    , form := { description := "Stamp", amount := "0.25", category := "other", date := "2024-01-09" } } ]

/-- Two valid submissions that happen in the same millisecond
(`Date.now()` returns `5` for both). -/
def subsSameClock : List Submission :=
  [ { now := 5, today := "2024-01-02"
    , form := { description := "a", amount := "1", category := "food", date := "2024-01-01" } }
  , { now := 5, today := "2024-01-02"
    , form := { description := "b", amount := "1", category := "food", date := "2024-01-01" } } ]

/-- Two valid submissions at distinct clock readings. -/
def subsDistinctClock : List Submission :=
  [ { now := 5, today := "2024-01-02"
    , form := { description := "a", amount := "1", category := "food", date := "2024-01-01" } }
  , { now := 6, today := "2024-01-02"
    , form := { description := "b", amount := "1", category := "food", date := "2024-01-01" } } ]

/-- An expense dated later than `coffeeJan05`. -/
def rentJan20 : Expense :=
  { id := 1, description := "Rent", amount := 100, category := "home", date := "2024-01-20" }

/-- An expense dated earlier than `rentJan20`. -/
def coffeeJan05 : Expense :=
  { id := 2, description := "Coffee", amount := 5, category := "food", date := "2024-01-05" }

/- ### Helper lemmas -/

/-- The display comparator as a relation: `a` may precede `b` when `a`'s date
is not earlier than `b`'s. -/
abbrev dateGE (a b : Expense) : Prop := dateVal b.date ≤ dateVal a.date

lemma mem_insertByDateDesc {y e : Expense} : ∀ {L : List Expense},
    y ∈ insertByDateDesc e L ↔ y = e ∨ y ∈ L := by
  intro L
  induction L with
  | nil => simp [insertByDateDesc]
  | cons x xs ih =>
    by_cases h : dateVal x.date < dateVal e.date
    · simp [insertByDateDesc, h]
    · simp only [insertByDateDesc, if_neg h, List.mem_cons, ih]
      tauto

lemma pairwise_insertByDateDesc {e : Expense} : ∀ {L : List Expense},
    L.Pairwise dateGE → (insertByDateDesc e L).Pairwise dateGE := by
  intro L
  induction L with
  | nil => intro _; simp [insertByDateDesc]
  | cons x xs ih =>
    intro h
    rcases List.pairwise_cons.mp h with ⟨hx, hxs⟩
    by_cases hlt : dateVal x.date < dateVal e.date
    · rw [insertByDateDesc, if_pos hlt]
      refine List.pairwise_cons.mpr ⟨?_, h⟩
      intro y hy
      rcases List.mem_cons.mp hy with rfl | hy'
      · exact le_of_lt hlt
      · exact le_trans (hx y hy') (le_of_lt hlt)
    · rw [insertByDateDesc, if_neg hlt]
      refine List.pairwise_cons.mpr ⟨?_, ih hxs⟩
      intro y hy
      rcases mem_insertByDateDesc.mp hy with rfl | hy'
      · exact not_lt.mp hlt
      · exact hx y hy'

lemma pairwise_sortByDateDesc (es : List Expense) :
    (sortByDateDesc es).Pairwise dateGE := by
  have aux : ∀ (l acc : List Expense), acc.Pairwise dateGE →
      (l.foldl (fun acc e => insertByDateDesc e acc) acc).Pairwise dateGE := by
    intro l
    induction l with
    | nil => intro acc h; exact h
    | cons x xs ih => intro acc h; exact ih _ (pairwise_insertByDateDesc h)
  exact aux es [] List.Pairwise.nil

lemma mem_sortByDateDesc {y : Expense} {es : List Expense} :
    y ∈ sortByDateDesc es ↔ y ∈ es := by
  have aux : ∀ (l acc : List Expense),
      (y ∈ l.foldl (fun acc e => insertByDateDesc e acc) acc) ↔ (y ∈ acc ∨ y ∈ l) := by
    intro l
    induction l with
    | nil => intro acc; simp
    | cons x xs ih =>
      intro acc
      rw [List.foldl_cons, ih, mem_insertByDateDesc]
      simp only [List.mem_cons]
      tauto
  rw [sortByDateDesc, aux es []]
  simp

lemma sortByDateDesc_append_single (es : List Expense) (e : Expense) :
    sortByDateDesc (es ++ [e]) = insertByDateDesc e (sortByDateDesc es) := by
  rw [sortByDateDesc, List.foldl_append]
  rfl

lemma falsyNumber_eq_false {o : Option ℚ} (h : falsyNumber o = false) :
    ∃ q, o = some q ∧ q ≠ 0 := by
  cases o with
  | none => simp [falsyNumber] at h
  | some q =>
    refine ⟨q, rfl, ?_⟩
    simpa [falsyNumber] using h

lemma invalidSubmission_eq_false {f : FormData} (h : invalidSubmission f = false) :
    f.description ≠ "" ∧ (∃ q, parseFloat f.amount = some q ∧ q ≠ 0) ∧ f.date ≠ "" := by
  rw [invalidSubmission] at h
  simp only [Bool.or_eq_false_iff] at h
  obtain ⟨⟨hd, ha⟩, hdt⟩ := h
  refine ⟨by simpa using hd, falsyNumber_eq_false ha, by simpa using hdt⟩

lemma submissionRecord_eq_none {sub : Submission} (h : invalidSubmission sub.form = true) :
    submissionRecord sub = none := by
  simp [submissionRecord, h]

lemma submissionRecord_eq_some {sub : Submission} (h : invalidSubmission sub.form = false) :
    submissionRecord sub = some
      { id := sub.now
      , description := sub.form.description
      , amount := (parseFloat sub.form.amount).getD 0
      , category := sub.form.category
      , date := sub.form.date } := by
  simp [submissionRecord, h]

lemma submissionRecord_some_valid {sub : Submission} {r : Expense}
    (h : submissionRecord sub = some r) : invalidSubmission sub.form = false := by
  by_cases hv : invalidSubmission sub.form = true
  · rw [submissionRecord_eq_none hv] at h
    exact absurd h (by simp)
  · exact eq_false_of_ne_true hv

lemma submissionRecord_some_fields {sub : Submission} {r : Expense}
    (h : submissionRecord sub = some r) :
    r.id = sub.now ∧ r.amount = (parseFloat sub.form.amount).getD 0 := by
  have hv := submissionRecord_some_valid h
  rw [submissionRecord_eq_some hv] at h
  have := Option.some.inj h
  rw [← this]
  exact ⟨rfl, rfl⟩

lemma handleFormSubmit_invalid (st : AppState) (now : Int) (today : String)
    (h : invalidSubmission st.form = true) :
    handleFormSubmit now today st =
      { st with messageText := "Please fill in all fields.", messageColor := "#ef4444" } := by
  simp [handleFormSubmit, h]

lemma handleFormSubmit_valid (st : AppState) (now : Int) (today : String)
    (h : invalidSubmission st.form = false) :
    handleFormSubmit now today st =
      { expenses := st.expenses ++
          [{ id := now
           , description := st.form.description
           , amount := (parseFloat st.form.amount).getD 0
           , category := st.form.category
           , date := st.form.date }]
      , form := { description := "", amount := "", category := "", date := today }
      , messageText := "Expense added successfully!"
      , messageColor := "#22c55e"
      , view := (showPage st.view ("dashboard-page")).1
      , rendered := updateUI (st.expenses ++
          [{ id := now
           , description := st.form.description
           , amount := (parseFloat st.form.amount).getD 0
           , category := st.form.category
           , date := st.form.date }]) } := by
  simp [handleFormSubmit, h]

lemma runSubmissions_cons (sub : Submission) (subs : List Submission) (st : AppState) :
    runSubmissions (sub :: subs) st =
      runSubmissions subs (handleFormSubmit sub.now sub.today { st with form := sub.form }) := rfl

lemma runSubmissions_expenses : ∀ (subs : List Submission) (st : AppState),
    (runSubmissions subs st).expenses = st.expenses ++ subs.filterMap submissionRecord := by
  intro subs
  induction subs with
  | nil => intro st; simp [runSubmissions]
  | cons sub subs ih =>
    intro st
    rw [runSubmissions_cons, ih]
    by_cases h : invalidSubmission sub.form = true
    · rw [handleFormSubmit_invalid { st with form := sub.form } sub.now sub.today h]
      simp [List.filterMap_cons, submissionRecord_eq_none h]
    · have hb := eq_false_of_ne_true h
      rw [handleFormSubmit_valid { st with form := sub.form } sub.now sub.today hb]
      simp [List.filterMap_cons, submissionRecord_eq_some hb]

lemma runSubmissions_rendered : ∀ (subs : List Submission) (st : AppState),
    st.rendered = updateUI st.expenses →
    (runSubmissions subs st).rendered = updateUI (runSubmissions subs st).expenses := by
  intro subs
  induction subs with
  | nil => intro st h; exact h
  | cons sub subs ih =>
    intro st h
    rw [runSubmissions_cons]
    apply ih
    by_cases hv : invalidSubmission sub.form = true
    · rw [handleFormSubmit_invalid { st with form := sub.form } sub.now sub.today hv]
      exact h
    · rw [handleFormSubmit_valid { st with form := sub.form } sub.now sub.today (eq_false_of_ne_true hv)]

lemma sumAmounts_eq_jsSum (es : List Expense) :
    sumAmounts es = jsSum (es.map (fun e => e.amount)) := by
  have aux : ∀ (l : List Expense) (a : ℚ),
      l.foldl (fun s e => fl (s + e.amount)) a =
        (l.map (fun e => e.amount)).foldl (fun s q => fl (s + q)) a := by
    intro l
    induction l with
    | nil => intro a; simp
    | cons x xs ih => intro a; simp [List.foldl_cons, ih]
  rw [sumAmounts, jsSum, aux]

lemma filterMap_records_amounts : ∀ (subs : List Submission),
    (∀ sub ∈ subs, invalidSubmission sub.form = false) →
    (subs.filterMap submissionRecord).map (fun e => e.amount) =
      subs.map (fun sub => (parseFloat sub.form.amount).getD 0) := by
  intro subs
  induction subs with
  | nil => intro _; simp
  | cons sub subs ih =>
    intro h
    have hhead : invalidSubmission sub.form = false := h sub (List.mem_cons_self sub subs)
    have htail : ∀ s ∈ subs, invalidSubmission s.form = false :=
      fun s hs => h s (List.mem_cons_of_mem sub hs)
    simp [List.filterMap_cons, submissionRecord_eq_some hhead, ih htail]

lemma id_mem_clock_readings : ∀ (subs : List Submission) (x : Int),
    x ∈ (subs.filterMap submissionRecord).map (fun e => e.id) →
    x ∈ subs.map (fun sub => sub.now) := by
  intro subs
  induction subs with
  | nil => intro x hx; simp at hx
  | cons sub subs ih =>
    intro x hx
    cases hr : submissionRecord sub with
    | none =>
      rw [List.filterMap_cons, hr] at hx
      exact List.mem_cons_of_mem _ (ih x hx)
    | some r =>
      rw [List.filterMap_cons, hr, List.map_cons] at hx
      rcases List.mem_cons.mp hx with rfl | hx'
      · exact List.mem_cons.mpr (Or.inl (submissionRecord_some_fields hr).1)
      · exact List.mem_cons_of_mem _ (ih x hx')

lemma ids_pairwise_of_clocks_pairwise : ∀ (subs : List Submission),
    (subs.map (fun sub => sub.now)).Pairwise (fun a b => a ≠ b) →
    ((subs.filterMap submissionRecord).map (fun e => e.id)).Pairwise (fun a b => a ≠ b) := by
  intro subs
  induction subs with
  | nil => intro _; simp
  | cons sub subs ih =>
    intro h
    rw [List.map_cons] at h
    rcases List.pairwise_cons.mp h with ⟨hhead, htail⟩
    cases hr : submissionRecord sub with
    | none =>
      rw [List.filterMap_cons, hr]
      exact ih htail
    | some r =>
      rw [List.filterMap_cons, hr, List.map_cons]
      refine List.pairwise_cons.mpr ⟨?_, ih htail⟩
      intro y hy
      rw [(submissionRecord_some_fields hr).1]
      exact hhead y (id_mem_clock_readings subs y hy)

lemma countP_activateFirst : ∀ (ps : List PageEl) (pid : String),
    (∀ p ∈ ps, p.active = false) → (ps.find? (fun p => p.id == pid)).isSome →
    (activateFirst ps pid).countP (fun p => p.active) = 1 := by
  intro ps
  induction ps with
  | nil => intro pid _ hf; simp [List.find?] at hf
  | cons q qs ih =>
    intro pid hall hf
    by_cases hq : (q.id == pid) = true
    · rw [activateFirst, if_pos hq]
      rw [List.countP_cons]
      have hz : qs.countP (fun p => p.active) = 0 := by
        rw [List.countP_eq_zero]
        intro p hp
        simp [hall p (List.mem_cons_of_mem q hp)]
      simp [hz]
    · rw [activateFirst, if_neg hq]
      rw [List.countP_cons]
      have hqa : q.active = false := hall q (List.mem_cons_self q qs)
      rw [List.find?_cons_of_neg _ (by simpa using hq)] at hf
      have := ih pid (fun p hp => hall p (List.mem_cons_of_mem q hp)) hf
      simp [this, hqa]

/- ### Claim theorems -/

/-- C1: for every successful form submission (non-empty description, amount
string parsing to a nonzero number, non-empty date), the expense sequence
grows by exactly one, and the appended record's description, category and
date equal the submitted field values, with amount equal to the parsed
numeric value of the submitted amount string. -/
theorem submit_valid_appends_record (st : AppState) (now : Int) (today : String) (q : ℚ)
    (hd : st.form.description ≠ "") (ha : parseFloat st.form.amount = some q) (hq : q ≠ 0)
    (hdt : st.form.date ≠ "") :
    (handleFormSubmit now today st).expenses =
      st.expenses ++
        [{ id := now
         , description := st.form.description
         , amount := q
         , category := st.form.category
         , date := st.form.date }] ∧
    (handleFormSubmit now today st).expenses.length = st.expenses.length + 1 := by
  have hinv : invalidSubmission st.form = false := by
    simp [invalidSubmission, falsyNumber, ha, hd, hdt, hq]
  have := handleFormSubmit_valid st now today hinv
  rw [this]
  refine ⟨?_, ?_⟩
  · simp [ha]
  · simp

/-- C1 witness: a concrete valid submission appends exactly its record. -/
theorem submit_valid_appends_record_witness :
    stEx.form.description ≠ "" ∧ parseFloat stEx.form.amount = some (9/2) ∧
    ((9 : ℚ)/2) ≠ 0 ∧ stEx.form.date ≠ "" ∧
    ((handleFormSubmit 3 ("2024-01-11") stEx).expenses =
      stEx.expenses ++
        [{ id := 3
         , description := stEx.form.description
         , amount := 9/2
         , category := stEx.form.category
         , date := stEx.form.date }] ∧
     (handleFormSubmit 3 ("2024-01-11") stEx).expenses.length = stEx.expenses.length + 1) :=
  ⟨by decide, by decide, by decide, by decide,
   submit_valid_appends_record stEx 3 ("2024-01-11") (9/2)
     (by decide) (by decide) (by decide) (by decide)⟩

/-- C2: a submission with an empty description, or an amount that fails to
parse or parses to zero, or an empty date is rejected: the error message is
shown on the red background, the expense sequence is unchanged, and the form
fields are not reset. -/
theorem submit_invalid_rejected (st : AppState) (now : Int) (today : String)
    (h : st.form.description = "" ∨ parseFloat st.form.amount = none ∨
         parseFloat st.form.amount = some 0 ∨ st.form.date = "") :
    handleFormSubmit now today st =
      { st with messageText := "Please fill in all fields.", messageColor := "#ef4444" } ∧
    (handleFormSubmit now today st).expenses = st.expenses ∧
    (handleFormSubmit now today st).form = st.form := by
  have hinv : invalidSubmission st.form = true := by
    rcases h with h | h | h | h
    · simp [invalidSubmission, h]
    · simp [invalidSubmission, falsyNumber, h]
    · simp [invalidSubmission, falsyNumber, h]
    · simp [invalidSubmission, h]
  rw [handleFormSubmit_invalid st now today hinv]
  exact ⟨rfl, rfl, rfl⟩

/-- C2 witness: a concrete submission with an empty description is rejected
and changes neither the store nor the form. -/
theorem submit_invalid_rejected_witness :
    (stEmptyDesc.form.description = "" ∨ parseFloat stEmptyDesc.form.amount = none ∨
     parseFloat stEmptyDesc.form.amount = some 0 ∨ stEmptyDesc.form.date = "") ∧
    (handleFormSubmit 4 ("2024-01-11") stEmptyDesc =
      { stEmptyDesc with
          messageText := "Please fill in all fields.", messageColor := "#ef4444" } ∧
     (handleFormSubmit 4 ("2024-01-11") stEmptyDesc).expenses = stEmptyDesc.expenses ∧
     (handleFormSubmit 4 ("2024-01-11") stEmptyDesc).form = stEmptyDesc.form) :=
  ⟨by decide, submit_invalid_rejected stEmptyDesc 4 ("2024-01-11") (by decide)⟩

/-- C7: after `updateUI`, the empty-state placeholder is among the list
container's children if and only if the stored expense sequence is empty. -/
theorem placeholder_iff_store_empty (es : List Expense) :
    ListItem.placeholder ∈ (updateUI es).listContents ↔ es = [] := by
  rcases es with _ | ⟨x, xs⟩
  · simp [updateUI]
  · rw [updateUI]
    simp only [List.length_cons]
    rw [if_neg (by simp)]
    simp only [List.mem_map]
    constructor
    · rintro ⟨e, _, he⟩
      exact absurd he (by simp [renderEntry])
    · intro h
      exact absurd h (by simp)

/-- C10: a submitted amount string whose leading portion parses as a nonzero
number but which has trailing non-numeric characters passes validation (with
non-empty description and date), and the stored record's amount is the parsed
numeric value of that leading portion. -/
theorem numeric_prefix_amount_accepted (st : AppState) (now : Int) (today : String) (q : ℚ)
    (ha : parseFloat st.form.amount = some q) (hq : q ≠ 0)
    (hd : st.form.description ≠ "") (hdt : st.form.date ≠ "") :
    invalidSubmission st.form = false ∧
    (handleFormSubmit now today st).expenses.getLast? =
      some { id := now
           , description := st.form.description
           , amount := q
           , category := st.form.category
           , date := st.form.date } := by
  have hinv : invalidSubmission st.form = false := by
    simp [invalidSubmission, falsyNumber, ha, hd, hdt, hq]
  refine ⟨hinv, ?_⟩
  rw [handleFormSubmit_valid st now today hinv]
  simp [ha]

/-- C10 witness: submitting the amount string `4.5abc` succeeds and stores
the amount `4.5`, the value of the parsed numeric leading portion. -/
theorem numeric_prefix_amount_accepted_witness :
    parseFloat stGarbage.form.amount = some (9/2) ∧ ((9 : ℚ)/2) ≠ 0 ∧
    stGarbage.form.description ≠ "" ∧ stGarbage.form.date ≠ "" ∧
    (invalidSubmission stGarbage.form = false ∧
     (handleFormSubmit 8 ("2024-01-07") stGarbage).expenses.getLast? =
       some { id := 8
            , description := stGarbage.form.description
            , amount := 9/2
            , category := stGarbage.form.category
            , date := stGarbage.form.date }) :=
  ⟨by decide, by decide, by decide, by decide,
   numeric_prefix_amount_accepted stGarbage 8 ("2024-01-07") (9/2)
     (by decide) (by decide) (by decide) (by decide)⟩

/-- C5 counterexample: calling `showPage` with a page id that matches no
known view is not a silent no-op — at this concrete input an error is raised
(`document.getElementById` yields `null` and `null.classList` throws) and the
views' active states do change (the previously active view was already
deactivated before the failing lookup). -/
theorem showPage_unknown_not_noop_cex :
    (showPage vsActive ("settings-page")).2 = true ∧
    (showPage vsActive ("settings-page")).1.pages ≠ vsActive.pages := by
  decide

/-- C5 amended: calling `showPage` with a page id that matches no known view
first removes the active state from every view, then raises an error at the
failed element lookup; the navigation links are left unchanged. -/
theorem showPage_unknown_deactivates_then_throws (vs : ViewState) (pid : String)
    (h : ∀ p ∈ vs.pages, p.id ≠ pid) :
    (showPage vs pid).2 = true ∧
    (showPage vs pid).1.pages = vs.pages.map (fun p => { p with active := false }) ∧
    (showPage vs pid).1.navLinks = vs.navLinks := by
  have hfind : (vs.pages.map (fun p => { p with active := false })).find?
      (fun p => p.id == pid) = none := by
    rw [List.find?_eq_none]
    intro x hx
    rcases List.mem_map.mp hx with ⟨p0, hp0, rfl⟩
    simpa using h p0 hp0
  rw [showPage, hfind]
  exact ⟨rfl, rfl, rfl⟩

/-- C5 amended witness: the unknown id `settings-page` at the concrete state
with the logger view active. -/
theorem showPage_unknown_deactivates_then_throws_witness :
    (∀ p ∈ vsActive.pages, p.id ≠ "settings-page") ∧
    ((showPage vsActive ("settings-page")).2 = true ∧
     (showPage vsActive ("settings-page")).1.pages =
       vsActive.pages.map (fun p => { p with active := false }) ∧
     (showPage vsActive ("settings-page")).1.navLinks = vsActive.navLinks) :=
  ⟨by decide, showPage_unknown_deactivates_then_throws vsActive ("settings-page") (by decide)⟩

/-- C6: after any call to `showPage` that does not raise (the id matches a
view), exactly one view is active, and a navigation link is highlighted
exactly when its associated page identifier equals the requested page id. -/
theorem showPage_exactly_one_active (vs : ViewState) (pid : String)
    (h : (showPage vs pid).2 = false) :
    ((showPage vs pid).1.pages.countP (fun p => p.active)) = 1 ∧
    ∀ l ∈ (showPage vs pid).1.navLinks, (l.highlighted = true ↔ l.page = pid) := by
  cases hf : (vs.pages.map (fun p => { p with active := false })).find?
      (fun p => p.id == pid) with
  | none =>
    rw [showPage, hf] at h
    exact absurd h (by simp)
  | some p =>
    rw [showPage, hf] at h ⊢
    constructor
    · apply countP_activateFirst
      · intro x hx
        rcases List.mem_map.mp hx with ⟨x0, _, rfl⟩
        rfl
      · rw [hf]
        rfl
    · intro l hl
      rcases List.mem_map.mp hl with ⟨l0, _, rfl⟩
      simp

/-- C6 witness: switching to the dashboard page at a concrete state succeeds,
leaves exactly one view active and highlights exactly the dashboard link. -/
theorem showPage_exactly_one_active_witness :
    (showPage vsActive ("dashboard-page")).2 = false ∧
    (((showPage vsActive ("dashboard-page")).1.pages.countP (fun p => p.active)) = 1 ∧
     ∀ l ∈ (showPage vsActive ("dashboard-page")).1.navLinks,
       (l.highlighted = true ↔ l.page = "dashboard-page")) :=
  ⟨by decide, showPage_exactly_one_active vsActive ("dashboard-page") (by decide)⟩

/-- C3 counterexample: the running total is a double and every addition of
the `reduce` rounds, so the displayed total can differ from the exact sum of
the stored amounts formatted to two decimals — submitting the valid amounts
`10000000000000000` and `0.25` displays `$10000000000000000.00`, while the
exact sum formats to `10000000000000000.25`. -/
theorem displayed_total_not_exact_sum_cex :
    (∀ sub ∈ subsBig, invalidSubmission sub.form = false) ∧
    (runSubmissions subsBig (initState formEx vsEx)).rendered.totalText =
      "$10000000000000000.00" ∧
    toFixed2 (((runSubmissions subsBig (initState formEx vsEx)).expenses.map
        (fun e => e.amount)).sum) = "10000000000000000.25" ∧
    (runSubmissions subsBig (initState formEx vsEx)).rendered.totalText ≠
      "$" ++ toFixed2 (((runSubmissions subsBig (initState formEx vsEx)).expenses.map
        (fun e => e.amount)).sum) := by
  refine ⟨by decide, by decide, by decide, ?_⟩
  decide

/-- C3 amended: after every sequence of valid submissions starting from the
initial state, the displayed total is the dollar sign followed by the
IEEE-754 double running sum of the stored records' amounts (each addition of
the reduce rounded to the nearest binary64 value) formatted to two decimal
places, and that running sum equals the double running sum of the parsed
submitted amounts. -/
theorem displayed_total_is_sum (subs : List Submission) (f0 : FormData) (vs0 : ViewState)
    (h : ∀ sub ∈ subs, invalidSubmission sub.form = false) :
    (runSubmissions subs (initState f0 vs0)).rendered.totalText =
      "$" ++ toFixed2 (sumAmounts (runSubmissions subs (initState f0 vs0)).expenses) ∧
    sumAmounts (runSubmissions subs (initState f0 vs0)).expenses =
      jsSum (subs.map (fun sub => (parseFloat sub.form.amount).getD 0)) := by
  constructor
  · have hr := runSubmissions_rendered subs (initState f0 vs0) rfl
    rw [hr]
    rfl
  · rw [runSubmissions_expenses]
    rw [show (initState f0 vs0).expenses = [] from rfl, List.nil_append]
    rw [sumAmounts_eq_jsSum, filterMap_records_amounts subs h]

/-- C3 amended witness: two concrete valid submissions of 4.50 and 2.25,
both exactly representable doubles. -/
theorem displayed_total_is_sum_witness :
    (∀ sub ∈ subsEx, invalidSubmission sub.form = false) ∧
    ((runSubmissions subsEx (initState formEx vsEx)).rendered.totalText =
      "$" ++ toFixed2 (sumAmounts (runSubmissions subsEx (initState formEx vsEx)).expenses) ∧
     sumAmounts (runSubmissions subsEx (initState formEx vsEx)).expenses =
      jsSum (subsEx.map (fun sub => (parseFloat sub.form.amount).getD 0))) :=
  ⟨by decide, displayed_total_is_sum subsEx formEx vsEx (by decide)⟩

/-- C4: the list rendered by `updateUI` is sorted by date descending (for a
non-empty store its children are exactly the rows of the date-descending
display order), and appending a record dated earlier than some record already
in the store does not change which entry appears first in the displayed
list. -/
theorem display_sorted_by_date_desc (es : List Expense) (e e' : Expense)
    (h1 : e' ∈ es) (h2 : dateVal e.date < dateVal e'.date) :
    (∀ fs : List Expense, (sortByDateDesc fs).Pairwise dateGE) ∧
    (∀ fs : List Expense, fs ≠ [] →
      (updateUI fs).listContents = (sortByDateDesc fs).map renderEntry) ∧
    (updateUI (es ++ [e])).listContents.head? = (updateUI es).listContents.head? := by
  have hcontents : ∀ fs : List Expense, fs ≠ [] →
      (updateUI fs).listContents = (sortByDateDesc fs).map renderEntry := by
    intro fs hfs
    rw [updateUI]
    rw [if_neg (by simpa [List.length_eq_zero] using hfs)]
  refine ⟨fun fs => pairwise_sortByDateDesc fs, hcontents, ?_⟩
  have hne : es ≠ [] := by
    intro hcon
    rw [hcon] at h1
    exact absurd h1 (List.not_mem_nil e')
  obtain ⟨x, xs, hx⟩ : ∃ x xs, sortByDateDesc es = x :: xs := by
    cases hsort : sortByDateDesc es with
    | nil =>
      have hmem := mem_sortByDateDesc.mpr h1
      rw [hsort] at hmem
      exact absurd hmem (List.not_mem_nil e')
    | cons x xs => exact ⟨x, xs, rfl⟩
  have hxmax : dateVal e.date ≤ dateVal x.date := by
    have hmem : e' ∈ x :: xs := hx ▸ mem_sortByDateDesc.mpr h1
    have hpair := pairwise_sortByDateDesc es
    rw [hx] at hpair
    rcases List.mem_cons.mp hmem with rfl | hmem'
    · exact le_of_lt h2
    · rcases List.pairwise_cons.mp hpair with ⟨hxall, _⟩
      exact le_trans (le_of_lt h2) (hxall e' hmem')
  rw [hcontents (es ++ [e]) (by simp), hcontents es hne]
  rw [sortByDateDesc_append_single, hx]
  rw [insertByDateDesc, if_neg (not_lt.mpr hxmax)]
  simp

/-- C4 witness: appending a January 5 expense after a January 20 expense
leaves the January 20 entry at the top of the displayed list. -/
theorem display_sorted_by_date_desc_witness :
    rentJan20 ∈ [rentJan20] ∧ dateVal coffeeJan05.date < dateVal rentJan20.date ∧
    ((∀ fs : List Expense, (sortByDateDesc fs).Pairwise dateGE) ∧
     (∀ fs : List Expense, fs ≠ [] →
       (updateUI fs).listContents = (sortByDateDesc fs).map renderEntry) ∧
     (updateUI ([rentJan20] ++ [coffeeJan05])).listContents.head? =
       (updateUI [rentJan20]).listContents.head?) :=
  ⟨by decide, by decide,
   display_sorted_by_date_desc [rentJan20] coffeeJan05 rentJan20 (by decide) (by decide)⟩

/-- C8 counterexample: two submissions in the same millisecond (`Date.now()`
returns `5` for both) create two distinct records with the same id, so ids
are not unique within a session. -/
theorem record_ids_can_collide_cex :
    ¬ (∀ e1 ∈ (runSubmissions subsSameClock (initState formEx vsEx)).expenses,
       ∀ e2 ∈ (runSubmissions subsSameClock (initState formEx vsEx)).expenses,
         e1 ≠ e2 → e1.id ≠ e2.id) := by
  decide

/-- C8 amended: record ids equal the `Date.now()` reading at creation, so
when the clock readings of the submissions of a session are pairwise
distinct, all record ids are pairwise distinct. -/
theorem record_ids_distinct_of_distinct_clocks (subs : List Submission)
    (f0 : FormData) (vs0 : ViewState)
    (h : (subs.map (fun sub => sub.now)).Pairwise (fun a b => a ≠ b)) :
    ((runSubmissions subs (initState f0 vs0)).expenses.map (fun e => e.id)).Pairwise
      (fun a b => a ≠ b) := by
  rw [runSubmissions_expenses]
  rw [show (initState f0 vs0).expenses = [] from rfl, List.nil_append]
  exact ids_pairwise_of_clocks_pairwise subs h

/-- C8 amended witness: two submissions at clock readings 5 and 6 yield
records with pairwise distinct ids. -/
theorem record_ids_distinct_of_distinct_clocks_witness :
    (subsDistinctClock.map (fun sub => sub.now)).Pairwise (fun a b => a ≠ b) ∧
    ((runSubmissions subsDistinctClock (initState formEx vsEx)).expenses.map
      (fun e => e.id)).Pairwise (fun a b => a ≠ b) :=
  ⟨by decide, record_ids_distinct_of_distinct_clocks subsDistinctClock formEx vsEx (by decide)⟩

/-- C9 counterexample: the validation only rejects amounts that are `NaN` or
zero, so submitting the amount string `-5` stores a record whose amount is
negative — not every stored record has a positive amount. -/
theorem positive_amount_cex :
    ¬ (∀ e ∈ (handleFormSubmit 7 ("2024-01-04") stNeg).expenses, 0 < e.amount) := by
  decide

/-- C9 amended: every record in the expense store (reached by any sequence of
submissions from the initial empty store) has a nonzero — though possibly
negative — amount. -/
theorem stored_amounts_nonzero (subs : List Submission) (f0 : FormData) (vs0 : ViewState) :
    ∀ e ∈ (runSubmissions subs (initState f0 vs0)).expenses, e.amount ≠ 0 := by
  intro e he
  rw [runSubmissions_expenses] at he
  rw [show (initState f0 vs0).expenses = [] from rfl, List.nil_append] at he
  rcases List.mem_filterMap.mp he with ⟨sub, _, hr⟩
  have hv := submissionRecord_some_valid hr
  rcases invalidSubmission_eq_false hv with ⟨_, ⟨q, hpf, hq⟩, _⟩
  have ha := (submissionRecord_some_fields hr).2
  rw [ha, hpf, Option.getD_some]
  exact hq

/-- C9 amended witness: the record created by a concrete valid submission has
a nonzero amount. -/
theorem stored_amounts_nonzero_witness :
    (⟨5, "a", 1, "food", "2024-01-01"⟩ : Expense) ∈
      (runSubmissions [⟨5, "2024-01-02", ⟨"a", "1", "food", "2024-01-01"⟩⟩]
        (initState formEx vsEx)).expenses ∧
    (⟨5, "a", 1, "food", "2024-01-01"⟩ : Expense).amount ≠ 0 :=
  ⟨by decide,
   stored_amounts_nonzero [⟨5, "2024-01-02", ⟨"a", "1", "food", "2024-01-01"⟩⟩] formEx vsEx
     ⟨5, "a", 1, "food", "2024-01-01"⟩ (by decide)⟩

end Dinero
